import Mathlib

/-!
Verification of the GPS logging firmware (`src/LOGGING.ino`) against its
natural-language specification.

Shallow embedding conventions:
* C character buffers are modelled as `List Nat` of byte values (the content
  up to, and excluding, the terminating NUL; every copy in the source writes
  an explicit NUL terminator, so the list is exactly the string content).
* C `int` arithmetic on characters (`c - '0'`, truncating `/` and `%`) is
  modelled on `Int` with `Int.tdiv` / `Int.tmod`.
* `unsigned long` (32-bit) arithmetic is modelled on `Nat` with explicit
  reduction modulo `2^32`.
* The `float` speed value is kept symbolic (`SpeedVal`): the claims are about
  which expression is stored (`atof(token) * 1.852` versus the constant
  `0.0` versus the previous value), not about IEEE rounding.
* The stack buffer `tempTime`, which the source never initialises, is
  modelled as an extra input `tempTime0` holding the indeterminate bytes the
  buffer starts with.
-/

/-- Byte strings: C character buffers as lists of byte values. -/
abbrev Bytes := List Nat

/-- Convert a Lean string literal to its byte values (ASCII inputs only). -/
def strToBytes (s : String) : Bytes := s.toList.map Char.toNat

/-- Symbolic model of the `float speed` field: either the value
`atof(token) * 1.852` for a recorded token, or the constant `0.0`
(which is also the zero-initialised startup value). -/
inductive SpeedVal where
  | zeroFloat
  | parsedKmh (token : Bytes)
deriving DecidableEq

/-- The `struct GpsData` record from the source (string fields hold the
content before the NUL terminator). -/
structure GpsData where
  date : Bytes
  time : Bytes
  lat : Bytes
  ns : Nat
  lon : Bytes
  ew : Nat
  speed : SpeedVal
  mode : Nat
  dataReady : Bool
deriving DecidableEq

/-- `memset(&gpsData, 0, sizeof(gpsData))` in `setup()`: every string field
becomes empty (leading NUL), chars and floats become zero, flags false. -/
def initGpsData : GpsData :=
  { date := [], time := [], lat := [], ns := 0, lon := [], ew := 0,
    speed := SpeedVal.zeroFloat, mode := 0, dataReady := false }

/-- Time-zone offset constant `TZ_HOURS` from the source. -/
def TZ_HOURS : Int := 5

/-- Time-zone offset constant `TZ_MINUTES` from the source. -/
def TZ_MINUTES : Int := 30

/-- The C expression `buf[i] - '0'` (integer promotion, may be negative). -/
def byteVal (l : Bytes) (i : Nat) : Int := (l.getD i 0 : Int) - 48

/-- Decimal digit characters of a natural number, most significant first,
computed with a structural fuel bound (`fuel > digits` always suffices). -/
def decDigitsAux : Nat → Nat → Bytes
  | 0, _ => []
  | fuel + 1, n => if n < 10 then [48 + n] else decDigitsAux fuel (n / 10) ++ [48 + n % 10]

/-- Decimal digit characters of a natural number, most significant first
(the digits `printf` produces for a nonnegative value). -/
def decDigits (n : Nat) : Bytes := decDigitsAux (n + 1) n

/-- The characters `sprintf "%02d"` produces: two zero-padded digits for
values in `[0, 100)`, a minus sign followed by the digits for negative
values, all digits for larger values. -/
def fmt2 (n : Int) : Bytes :=
  if n < 0 then 45 :: decDigits n.natAbs
  else if n < 10 then [48, 48 + n.toNat]
  else decDigits n.toNat

/-- `adjustTimeZone` from the source: parse `HHMMSS`, add the configured
offset with carry from minutes into hours, wrap hours modulo 24, format
back with `sprintf("%02d%02d%02d", ...)`. -/
def adjustTimeZone (utcTime : Bytes) : Bytes :=
  let hours : Int := byteVal utcTime 0 * 10 + byteVal utcTime 1
  let minutes : Int := byteVal utcTime 2 * 10 + byteVal utcTime 3
  let seconds : Int := byteVal utcTime 4 * 10 + byteVal utcTime 5
  let minutes := minutes + TZ_MINUTES
  let hours := hours + TZ_HOURS + minutes.tdiv 60
  let minutes := minutes.tmod 60
  let hours := hours.tmod 24
  fmt2 hours ++ fmt2 minutes ++ fmt2 seconds

/-- Split a byte string at every comma (byte 44), keeping empty pieces:
the comma-position fields of an NMEA sentence. -/
def splitFields : Bytes → List Bytes
  | [] => [[]]
  | b :: rest =>
    if b = 44 then [] :: splitFields rest
    else
      match splitFields rest with
      | [] => [[b]]
      | f :: fs => (b :: f) :: fs

/-- The token sequence `strtok(sentence, ",")` actually yields: consecutive
delimiters are treated as one, so empty fields are skipped entirely. -/
def strtokFields (s : Bytes) : List Bytes :=
  (splitFields s).filter (fun t => t ≠ [])

/-- One iteration of the `switch (fieldCount)` statement in `parseRMC`,
acting on the pair (record, tempTime buffer). -/
def parseField (st : GpsData × Bytes) (fieldCount : Nat) (token : Bytes) :
    GpsData × Bytes :=
  match fieldCount with
  | 1 => if 6 ≤ token.length then (st.1, token.take 6) else st
  | 2 => if 0 < token.length then ({ st.1 with mode := token.headD 0 }, st.2) else st
  | 3 => if 0 < token.length then ({ st.1 with lat := token.take 10 }, st.2) else st
  | 4 => if 0 < token.length then ({ st.1 with ns := token.headD 0 }, st.2) else st
  | 5 => if 0 < token.length then ({ st.1 with lon := token.take 10 }, st.2) else st
  | 6 => if 0 < token.length then ({ st.1 with ew := token.headD 0 }, st.2) else st
  | 7 => if 0 < token.length then ({ st.1 with speed := SpeedVal.parsedKmh token }, st.2)
         else ({ st.1 with speed := SpeedVal.zeroFloat }, st.2)
  | 9 => if 6 ≤ token.length then
           ({ st.1 with date := token.take 6, dataReady := true }, st.2)
         else st
  | _ => st

/-- The `while (token != NULL)` loop of `parseRMC`, starting at a given
`fieldCount`. -/
def parseLoop (st : GpsData × Bytes) (fieldCount : Nat) : List Bytes → GpsData × Bytes
  | [] => st
  | t :: rest => parseLoop (parseField st fieldCount t) (fieldCount + 1) rest

/-- The contents of the `tempTime` buffer after the token loop of `parseRMC`
(`tempTime0` is whatever indeterminate bytes the uninitialised stack buffer
held on entry). -/
def capturedTime (g : GpsData) (tempTime0 : Bytes) (sentence : Bytes) : Bytes :=
  (parseLoop ({ g with dataReady := false }, tempTime0) 0 (strtokFields sentence)).2

/-- Decode outcome of `parseRMC`, named after the branch taken at the end:
the debug-print/update branch (`Updated`), the `"gps signal lost"` branch
(`SignalLost`), or the silent fall-through (`Malformed`). -/
inductive Outcome where
  | Updated
  | SignalLost
  | Malformed
deriving DecidableEq

/-- `parseRMC` from the source: clear `dataReady`, run the `strtok` token
loop, then if `dataReady && mode == 'A'` convert the captured time buffer
and store it into `gpsData.time`; a final mode of `'V'` reports signal
lost, anything else falls through silently. -/
def parseRMC (g : GpsData) (tempTime0 : Bytes) (sentence : Bytes) :
    GpsData × Outcome :=
  let st := parseLoop ({ g with dataReady := false }, tempTime0) 0 (strtokFields sentence)
  let g1 := st.1
  if g1.dataReady ∧ g1.mode = 65 then
    ({ g1 with time := adjustTimeZone st.2 }, Outcome.Updated)
  else if g1.mode = 86 then
    (g1, Outcome.SignalLost)
  else
    (g1, Outcome.Malformed)

/-- The sentence assembler state: the bytes stored in `buffer[0..bufferIndex)`
(`char buffer[128]`, one byte reserved for the NUL terminator). -/
structure Assembler where
  buffer : Bytes
deriving DecidableEq

/-- Startup assembler state (`bufferIndex = 0`). -/
def initAsm : Assembler := ⟨[]⟩

/-- One step of the byte loop in `loop()`: `$` restarts the buffer, `\n`/`\r`
emits the buffered bytes when non-empty, any other byte is appended while
fewer than 127 bytes are buffered and silently dropped otherwise. -/
def feed (st : Assembler) (c : Nat) : Assembler × Option Bytes :=
  if c = 36 then (⟨[]⟩, none)
  else if c = 10 ∨ c = 13 then
    if 0 < st.buffer.length then (⟨[]⟩, some st.buffer) else (⟨[]⟩, none)
  else if st.buffer.length < 127 then (⟨st.buffer ++ [c]⟩, none)
  else (st, none)

/-- Feed a whole byte sequence, recording the (optional) sentence emitted at
each step. -/
def feedAll (st : Assembler) : List Nat → Assembler × List (Option Bytes)
  | [] => (st, [])
  | c :: cs =>
    let f := feed st c
    let r := feedAll f.1 cs
    (r.1, f.2 :: r.2)

/-- A byte that resets the assembler buffer: `$`, `\n` or `\r`. -/
def isReset (c : Nat) : Bool := c = 36 || c = 10 || c = 13

/-- A sentence-terminating byte: `\n` or `\r`. -/
def isTerm (c : Nat) : Bool := c = 10 || c = 13

/-- The segment of a byte sequence since the most recent reset byte
(`$`, `\n`, `\r`) or since the start when no reset byte occurs. -/
def seg (l : List Nat) : List Nat :=
  (l.reverse.takeWhile (fun c => !isReset c)).reverse

/-- Logging interval constant `LOG_INTERVAL_MS` from the source. -/
def LOG_INTERVAL_MS : Nat := 5000

/-- Modulus of the 32-bit `unsigned long` arithmetic of `millis()`. -/
def U32 : Nat := 4294967296

/-- C unsigned 32-bit subtraction `a - b` on reduced representatives. -/
def usub (a b : Nat) : Nat := (a % U32 + (U32 - b % U32)) % U32

/-- The scheduler step in `loop()`:
`if (currentMillis - lastLogTime >= LOG_INTERVAL_MS) { lastLogTime = currentMillis; ... }`.
Returns whether the body fired and the new `lastLogTime`. -/
def schedTick (lastLogTime currentMillis : Nat) : Bool × Nat :=
  if LOG_INTERVAL_MS ≤ usub currentMillis lastLogTime then (true, currentMillis)
  else (false, lastLogTime)

/-- Fire decisions of the scheduler over a sequence of `millis()` readings. -/
def schedFires (lastLogTime : Nat) : List Nat → List Bool
  | [] => []
  | now :: rest =>
    (schedTick lastLogTime now).1 :: schedFires (schedTick lastLogTime now).2 rest

/-- Final `lastLogTime` after a sequence of `millis()` readings. -/
def schedLast (lastLogTime : Nat) : List Nat → Nat
  | [] => lastLogTime
  | now :: rest => schedLast (schedTick lastLogTime now).2 rest

/-- Reference fire decisions computed over unwrapped (real) timestamps. -/
def idealFires (lastFire : Nat) : List Nat → List Bool
  | [] => []
  | t :: ts =>
    if LOG_INTERVAL_MS ≤ (t - lastFire) % U32 then true :: idealFires t ts
    else false :: idealFires lastFire ts

/-- Real timestamps at which the scheduler fires. -/
def fireTimes (lastFire : Nat) : List Nat → List Nat
  | [] => []
  | t :: ts =>
    if LOG_INTERVAL_MS ≤ (t - lastFire) % U32 then t :: fireTimes t ts
    else fireTimes lastFire ts

/-- Record invariant of claim C10: the string fields of the fix record stay
within the capacities of `date[7]`, `time[7]`, `lat[11]`, `lon[11]`. -/
def gpsInv (g : GpsData) : Prop :=
  g.date.length ≤ 6 ∧ g.time.length ≤ 6 ∧ g.lat.length ≤ 10 ∧ g.lon.length ≤ 10

/-- The token that receives a given absolute `fieldCount` value `i` when the
token loop starts counting at `k`: the `(i - k)`-th element of the remaining
token list, if the loop reaches it. -/
def tokAt (toks : List Bytes) (k i : Nat) : Option Bytes :=
  if k ≤ i then toks[i - k]? else none

/-! ### Arithmetic helpers for the time-zone conversion -/

theorem decDigitsAux_small (fuel n : Nat) (hf : 0 < fuel) (hn : n < 10) :
    decDigitsAux fuel n = [48 + n] := by
  cases fuel with
  | zero => omega
  | succ k => simp [decDigitsAux, hn]

theorem decDigits_two_digit (n : Nat) (h10 : 10 ≤ n) (h100 : n < 100) :
    decDigits n = [48 + n / 10, 48 + n % 10] := by
  unfold decDigits
  obtain ⟨k, rfl⟩ : ∃ k, n = k + 1 := ⟨n - 1, by omega⟩
  simp only [decDigitsAux, if_neg (by omega : ¬ k + 1 < 10)]
  rw [if_pos (by omega : (k + 1) / 10 < 10)]
  rfl

theorem fmt2_ofNat (n : Nat) (h : n < 100) :
    fmt2 (n : Int) = [48 + n / 10, 48 + n % 10] := by
  unfold fmt2
  rw [if_neg (by omega)]
  by_cases h10 : n < 10
  · rw [if_pos (by exact_mod_cast h10)]
    have e1 : n / 10 = 0 := by omega
    have e2 : n % 10 = n := by omega
    simp [e1, e2]
  · rw [if_neg (by exact_mod_cast h10)]
    simpa using decDigits_two_digit n (by omega) h

theorem fmt2_length_two (n : Nat) (h : n < 100) : (fmt2 (n : Int)).length = 2 := by
  rw [fmt2_ofNat n h]; rfl

theorem byteVal_zero (x0 x1 x2 x3 x4 x5 : Nat) :
    byteVal [x0, x1, x2, x3, x4, x5] 0 = (x0 : Int) - 48 := rfl

theorem byteVal_one (x0 x1 x2 x3 x4 x5 : Nat) :
    byteVal [x0, x1, x2, x3, x4, x5] 1 = (x1 : Int) - 48 := rfl

theorem byteVal_two (x0 x1 x2 x3 x4 x5 : Nat) :
    byteVal [x0, x1, x2, x3, x4, x5] 2 = (x2 : Int) - 48 := rfl

theorem byteVal_three (x0 x1 x2 x3 x4 x5 : Nat) :
    byteVal [x0, x1, x2, x3, x4, x5] 3 = (x3 : Int) - 48 := rfl

theorem byteVal_four (x0 x1 x2 x3 x4 x5 : Nat) :
    byteVal [x0, x1, x2, x3, x4, x5] 4 = (x4 : Int) - 48 := rfl

theorem byteVal_five (x0 x1 x2 x3 x4 x5 : Nat) :
    byteVal [x0, x1, x2, x3, x4, x5] 5 = (x5 : Int) - 48 := rfl

theorem adjustTimeZone_digit_list (p q u v x y : Nat) :
    adjustTimeZone [p, q, u, v, x, y] =
      fmt2 ((((p : Int) - 48) * 10 + ((q : Int) - 48) + TZ_HOURS +
              (((u : Int) - 48) * 10 + ((v : Int) - 48) + TZ_MINUTES).tdiv 60).tmod 24) ++
      fmt2 ((((u : Int) - 48) * 10 + ((v : Int) - 48) + TZ_MINUTES).tmod 60) ++
      fmt2 (((x : Int) - 48) * 10 + ((y : Int) - 48)) := by
  simp only [adjustTimeZone, byteVal_zero, byteVal_one, byteVal_two, byteVal_three,
    byteVal_four, byteVal_five]

theorem tdiv_sixty (a : Nat) : ((a : Int)).tdiv 60 = ((a / 60 : Nat) : Int) := rfl

theorem tmod_sixty (a : Nat) : ((a : Int)).tmod 60 = ((a % 60 : Nat) : Int) := rfl

theorem tmod_twentyfour (a : Nat) : ((a : Int)).tmod 24 = ((a % 24 : Nat) : Int) := rfl

/-- C3 (amended): for every in-range `HHMMSS` time, `adjustTimeZone` returns
the six-digit string of the input time plus the +5h30m offset: writing
`T = h*60 + m + 330` for the total minutes, the hours become `T / 60 % 24`
and the minutes `T % 60` (minutes overflow carries into hours, the hour sum
wraps modulo 24), the seconds pass through unchanged, and every component is
re-padded to two digits. In particular input `123519` yields `180519`
(18:05:19), not `180019` as the original claim stated. -/
theorem c3_timezone_conversion (h m s : Nat)
    (hh : h ≤ 23) (hm : m ≤ 59) (hs : s ≤ 59) :
    adjustTimeZone (fmt2 (h : Int) ++ fmt2 (m : Int) ++ fmt2 (s : Int)) =
      fmt2 (((h * 60 + m + 330) / 60 % 24 : Nat) : Int) ++
      fmt2 (((h * 60 + m + 330) % 60 : Nat) : Int) ++
      fmt2 ((s : Int)) := by
  rw [fmt2_ofNat h (by omega), fmt2_ofNat m (by omega), fmt2_ofNat s (by omega)]
  simp only [List.cons_append, List.nil_append]
  rw [adjustTimeZone_digit_list]
  have eB : (((48 + m / 10 : Nat) : Int) - 48) * 10 + (((48 + m % 10 : Nat) : Int) - 48)
      + TZ_MINUTES = ((m + 30 : Nat) : Int) := by
    simp only [TZ_MINUTES]; push_cast; omega
  rw [eB, tdiv_sixty, tmod_sixty]
  have eA : (((48 + h / 10 : Nat) : Int) - 48) * 10 + (((48 + h % 10 : Nat) : Int) - 48)
      + TZ_HOURS + (((m + 30) / 60 : Nat) : Int) = ((h + 5 + (m + 30) / 60 : Nat) : Int) := by
    simp only [TZ_HOURS]; push_cast; omega
  rw [eA, tmod_twentyfour]
  have eC : (((48 + s / 10 : Nat) : Int) - 48) * 10 + (((48 + s % 10 : Nat) : Int) - 48)
      = ((s : Nat) : Int) := by
    push_cast; omega
  rw [eC]
  have e1 : (h + 5 + (m + 30) / 60) % 24 = (h * 60 + m + 330) / 60 % 24 := by omega
  have e2 : (m + 30) % 60 = (h * 60 + m + 330) % 60 := by omega
  rw [e1, e2, fmt2_ofNat s (by omega)]

/-- C3 counterexample: the original claim names the instance
`123519 → 180019`, but the code maps `123519` to `180519`
(12:35:19 + 5:30 = 18:05:19), as the claim's own carry arithmetic demands. -/
theorem c3_instance_counterexample :
    adjustTimeZone (strToBytes "123519") = strToBytes "180519" ∧
    adjustTimeZone (strToBytes "123519") ≠ strToBytes "180019" := by
  decide

/-- C3 witness: the amended theorem applied at 12:35:19. -/
theorem c3_timezone_conversion_witness :
    adjustTimeZone (fmt2 ((12 : Nat) : Int) ++ fmt2 ((35 : Nat) : Int) ++ fmt2 ((19 : Nat) : Int)) =
      fmt2 (((12 * 60 + 35 + 330) / 60 % 24 : Nat) : Int) ++
      fmt2 (((12 * 60 + 35 + 330) % 60 : Nat) : Int) ++
      fmt2 (((19 : Nat) : Int)) := by
  have hmain := c3_timezone_conversion 12 35 19 (by omega) (by omega) (by omega)
  exact hmain

/-! ### Characterizing the strtok field loop -/

theorem tokAt_nil (k i : Nat) : tokAt [] k i = none := by
  unfold tokAt; split <;> simp

theorem tokAt_zero (toks : List Bytes) (i : Nat) : tokAt toks 0 i = toks[i]? := by
  unfold tokAt; simp

theorem tokAt_cons_self (t : Bytes) (toks : List Bytes) (k : Nat) :
    tokAt (t :: toks) k k = some t := by
  unfold tokAt
  rw [if_pos (le_refl k)]
  simp

theorem tokAt_cons_ne (t : Bytes) (toks : List Bytes) (k i : Nat) (h : k ≠ i) :
    tokAt (t :: toks) k i = tokAt toks (k + 1) i := by
  unfold tokAt
  by_cases hk : k ≤ i
  · rw [if_pos hk, if_pos (by omega), show i - k = (i - (k + 1)) + 1 from by omega]
    simp
  · rw [if_neg hk, if_neg (by omega)]

theorem tokAt_gt (toks : List Bytes) (k i : Nat) (h : i < k) : tokAt toks k i = none := by
  unfold tokAt; rw [if_neg (by omega)]

theorem parseField_time (st : GpsData × Bytes) (k : Nat) (t : Bytes) :
    (parseField st k t).1.time = st.1.time := by
  rcases k with _|_|_|_|_|_|_|_|_|_|k <;>
    (simp only [parseField]) <;> (try split_ifs) <;> rfl

theorem parseField_mode_ne (st : GpsData × Bytes) (k : Nat) (t : Bytes) (h : k ≠ 2) :
    (parseField st k t).1.mode = st.1.mode := by
  rcases k with _|_|_|_|_|_|_|_|_|_|k <;>
    first
    | exact absurd rfl h
    | (simp only [parseField]) <;> (try split_ifs) <;> rfl

theorem parseField_speed_ne (st : GpsData × Bytes) (k : Nat) (t : Bytes) (h : k ≠ 7) :
    (parseField st k t).1.speed = st.1.speed := by
  rcases k with _|_|_|_|_|_|_|_|_|_|k <;>
    first
    | exact absurd rfl h
    | (simp only [parseField]) <;> (try split_ifs) <;> rfl

theorem parseField_dataReady_ne (st : GpsData × Bytes) (k : Nat) (t : Bytes) (h : k ≠ 9) :
    (parseField st k t).1.dataReady = st.1.dataReady := by
  rcases k with _|_|_|_|_|_|_|_|_|_|k <;>
    first
    | exact absurd rfl h
    | (simp only [parseField]) <;> (try split_ifs) <;> rfl

theorem parseField_lat_cases (st : GpsData × Bytes) (k : Nat) (t : Bytes) :
    (parseField st k t).1.lat = st.1.lat ∨ (parseField st k t).1.lat = t.take 10 := by
  rcases k with _|_|_|_|_|_|_|_|_|_|k <;>
    (simp only [parseField]) <;> (try split_ifs) <;> simp

theorem parseField_lon_cases (st : GpsData × Bytes) (k : Nat) (t : Bytes) :
    (parseField st k t).1.lon = st.1.lon ∨ (parseField st k t).1.lon = t.take 10 := by
  rcases k with _|_|_|_|_|_|_|_|_|_|k <;>
    (simp only [parseField]) <;> (try split_ifs) <;> simp

theorem parseField_date_cases (st : GpsData × Bytes) (k : Nat) (t : Bytes) :
    (parseField st k t).1.date = st.1.date ∨ (parseField st k t).1.date = t.take 6 := by
  rcases k with _|_|_|_|_|_|_|_|_|_|k <;>
    (simp only [parseField]) <;> (try split_ifs) <;> simp

theorem parseLoop_time (toks : List Bytes) :
    ∀ (k : Nat) (st : GpsData × Bytes), (parseLoop st k toks).1.time = st.1.time := by
  induction toks with
  | nil => intro k st; rfl
  | cons t rest ih =>
    intro k st
    rw [parseLoop, ih, parseField_time]

theorem parseLoop_mode (toks : List Bytes) :
    ∀ (k : Nat) (st : GpsData × Bytes),
      (parseLoop st k toks).1.mode =
        match tokAt toks k 2 with
        | some t => t.headD st.1.mode
        | none => st.1.mode := by
  induction toks with
  | nil => intro k st; rw [tokAt_nil]; rfl
  | cons t rest ih =>
    intro k st
    rw [parseLoop, ih]
    by_cases hk : k = 2
    · subst hk
      rw [tokAt_cons_self, tokAt_gt rest 3 2 (by omega)]
      cases t with
      | nil => simp [parseField]
      | cons b bs => simp [parseField]
    · rw [tokAt_cons_ne t rest k 2 hk, parseField_mode_ne st k t hk]

theorem parseLoop_speed (toks : List Bytes) :
    ∀ (k : Nat) (st : GpsData × Bytes),
      (parseLoop st k toks).1.speed =
        match tokAt toks k 7 with
        | some t => if 0 < t.length then SpeedVal.parsedKmh t else SpeedVal.zeroFloat
        | none => st.1.speed := by
  induction toks with
  | nil => intro k st; rw [tokAt_nil]; rfl
  | cons t rest ih =>
    intro k st
    rw [parseLoop, ih]
    by_cases hk : k = 7
    · subst hk
      rw [tokAt_cons_self, tokAt_gt rest 8 7 (by omega)]
      by_cases ht : 0 < t.length <;> simp [parseField, ht]
    · rw [tokAt_cons_ne t rest k 7 hk, parseField_speed_ne st k t hk]

theorem parseLoop_dataReady (toks : List Bytes) :
    ∀ (k : Nat) (st : GpsData × Bytes),
      (parseLoop st k toks).1.dataReady =
        match tokAt toks k 9 with
        | some t => if 6 ≤ t.length then true else st.1.dataReady
        | none => st.1.dataReady := by
  induction toks with
  | nil => intro k st; rw [tokAt_nil]; rfl
  | cons t rest ih =>
    intro k st
    rw [parseLoop, ih]
    by_cases hk : k = 9
    · subst hk
      rw [tokAt_cons_self, tokAt_gt rest 10 9 (by omega)]
      by_cases ht : 6 ≤ t.length <;> simp [parseField, ht]
    · rw [tokAt_cons_ne t rest k 9 hk, parseField_dataReady_ne st k t hk]

theorem parseLoop_lat_cases (toks : List Bytes) :
    ∀ (k : Nat) (st : GpsData × Bytes),
      (parseLoop st k toks).1.lat = st.1.lat ∨
      ∃ t : Bytes, (parseLoop st k toks).1.lat = t.take 10 := by
  induction toks with
  | nil => intro k st; exact Or.inl rfl
  | cons t rest ih =>
    intro k st
    rw [parseLoop]
    rcases ih (k + 1) (parseField st k t) with h | ⟨u, hu⟩
    · rw [h]
      rcases parseField_lat_cases st k t with h2 | h2
      · exact Or.inl h2
      · exact Or.inr ⟨t, h2⟩
    · exact Or.inr ⟨u, hu⟩

theorem parseLoop_lon_cases (toks : List Bytes) :
    ∀ (k : Nat) (st : GpsData × Bytes),
      (parseLoop st k toks).1.lon = st.1.lon ∨
      ∃ t : Bytes, (parseLoop st k toks).1.lon = t.take 10 := by
  induction toks with
  | nil => intro k st; exact Or.inl rfl
  | cons t rest ih =>
    intro k st
    rw [parseLoop]
    rcases ih (k + 1) (parseField st k t) with h | ⟨u, hu⟩
    · rw [h]
      rcases parseField_lon_cases st k t with h2 | h2
      · exact Or.inl h2
      · exact Or.inr ⟨t, h2⟩
    · exact Or.inr ⟨u, hu⟩

theorem parseLoop_date_cases (toks : List Bytes) :
    ∀ (k : Nat) (st : GpsData × Bytes),
      (parseLoop st k toks).1.date = st.1.date ∨
      ∃ t : Bytes, (parseLoop st k toks).1.date = t.take 6 := by
  induction toks with
  | nil => intro k st; exact Or.inl rfl
  | cons t rest ih =>
    intro k st
    rw [parseLoop]
    rcases ih (k + 1) (parseField st k t) with h | ⟨u, hu⟩
    · rw [h]
      rcases parseField_date_cases st k t with h2 | h2
      · exact Or.inl h2
      · exact Or.inr ⟨t, h2⟩
    · exact Or.inr ⟨u, hu⟩

/-- C4 (amended): the first character of the token that the loop counts as
field 2 is stored into `fixMode` verbatim — `A` marks Active and `V` marks
Void, but any other character (for example `X`) is stored as that
unrecognized byte rather than the previous value being kept; `fixMode`
keeps its previous value only when no token reaches position 2. -/
theorem c4_status_stored_verbatim (g : GpsData) (tempTime0 sentence : Bytes) :
    (parseRMC g tempTime0 sentence).1.mode =
      match (strtokFields sentence)[2]? with
      | some t => t.headD g.mode
      | none => g.mode := by
  have hmode := parseLoop_mode (strtokFields sentence) 0 ({ g with dataReady := false }, tempTime0)
  rw [tokAt_zero] at hmode
  simp only [parseRMC]
  split_ifs <;> simpa using hmode

/-- C4 counterexample: on a sentence whose status field holds `X`, the code
stores the byte `X` (88) into `fixMode` instead of leaving the previous
value (the zero-initialised record has `fixMode = 0`). -/
theorem c4_status_counterexample :
    (parseRMC initGpsData (strToBytes "000000")
      (strToBytes "GPRMC,123519,X,4807.038,N,01131.000,E,022.4,084.4,230394")).1.mode = 88 ∧
    initGpsData.mode = 0 := by
  decide

/-- C7: whenever a decode leaves `fixMode = 'V'` (86), the outcome is
`SignalLost` — regardless of `dataReady` and of every other field — and the
record's `localTime` is left exactly as it was (no UTC-to-local conversion
is written). -/
theorem c7_void_signal_lost (g : GpsData) (tempTime0 sentence : Bytes)
    (hv : (parseRMC g tempTime0 sentence).1.mode = 86) :
    (parseRMC g tempTime0 sentence).2 = Outcome.SignalLost ∧
    (parseRMC g tempTime0 sentence).1.time = g.time := by
  have htime := parseLoop_time (strtokFields sentence) 0 ({ g with dataReady := false }, tempTime0)
  simp only [parseRMC] at hv ⊢
  split_ifs at hv ⊢ with h1 h2
  · exfalso
    obtain ⟨hd, hm⟩ := h1
    simp at hv
    rw [hm] at hv
    omega
  · refine ⟨rfl, ?_⟩
    simpa using htime
  · exfalso
    simp at hv
    exact h2 hv

/-- C7 witness: a concrete Void-status sentence yields `SignalLost` and an
untouched `localTime`. -/
theorem c7_void_signal_lost_witness :
    (parseRMC initGpsData (strToBytes "000000")
      (strToBytes "GPRMC,123519,V,4807.038,N,01131.000,E,022.4,084.4,230394")).2 =
        Outcome.SignalLost ∧
    (parseRMC initGpsData (strToBytes "000000")
      (strToBytes "GPRMC,123519,V,4807.038,N,01131.000,E,022.4,084.4,230394")).1.time =
        initGpsData.time :=
  c7_void_signal_lost initGpsData (strToBytes "000000")
    (strToBytes "GPRMC,123519,V,4807.038,N,01131.000,E,022.4,084.4,230394") (by decide)

/-- C1 (code bug): on a sentence with an empty time field,
`GPRMC,,V,4807.038,N,01131.000,E,022.4,084.4,230394`, values are NOT
assigned by absolute comma position: `strtok` collapses the adjacent
commas, so `fixMode` receives `4` (52, first byte of the latitude field)
instead of the status `V`, the latitude slot receives the string `N`, the
N/S slot receives `0` (48, first byte of the longitude), the date never
reaches field index 9, `dataReady` stays false and the decode falls
through as `Malformed`. -/
theorem c1_parse_not_positional :
    (parseRMC initGpsData (strToBytes "000000")
      (strToBytes "GPRMC,,V,4807.038,N,01131.000,E,022.4,084.4,230394")).1.mode = 52 ∧
    (parseRMC initGpsData (strToBytes "000000")
      (strToBytes "GPRMC,,V,4807.038,N,01131.000,E,022.4,084.4,230394")).1.lat =
        strToBytes "N" ∧
    (parseRMC initGpsData (strToBytes "000000")
      (strToBytes "GPRMC,,V,4807.038,N,01131.000,E,022.4,084.4,230394")).1.ns = 48 ∧
    (parseRMC initGpsData (strToBytes "000000")
      (strToBytes "GPRMC,,V,4807.038,N,01131.000,E,022.4,084.4,230394")).1.dataReady = false ∧
    (parseRMC initGpsData (strToBytes "000000")
      (strToBytes "GPRMC,,V,4807.038,N,01131.000,E,022.4,084.4,230394")).2 =
        Outcome.Malformed := by
  decide

/-- C5 (code bug): on a sentence whose speed field (comma position 7) is
empty, `GPRMC,123519,A,4807.038,N,01131.000,E,,084.4,230394`, the code does
NOT set `speedKmh = 0.0`: `strtok` skips the empty field, the track-angle
string `084.4` slides into token position 7, and the record receives
`atof("084.4") * 1.852`. -/
theorem c5_speed_field_shift :
    (parseRMC initGpsData (strToBytes "000000")
      (strToBytes "GPRMC,123519,A,4807.038,N,01131.000,E,,084.4,230394")).1.speed =
        SpeedVal.parsedKmh (strToBytes "084.4") ∧
    (parseRMC initGpsData (strToBytes "000000")
      (strToBytes "GPRMC,123519,A,4807.038,N,01131.000,E,,084.4,230394")).1.speed ≠
        SpeedVal.zeroFloat := by
  decide

/-- C6 (code bug): on `GPRMC,123519,A,4807.038,N,01131.000,E,022.4,,2303,0031234`
the date field (comma position 9) is `2303`, shorter than 6 characters, so
the claim demands `Malformed` with `dataReady = false`; but `strtok`
collapses the empty track-angle field, the trailing `0031234` slides into
token position 9, and the code raises `dataReady`, copies `003123` as the
date and returns `Updated`. -/
theorem c6_dataready_field_shift :
    (parseRMC initGpsData (strToBytes "000000")
      (strToBytes "GPRMC,123519,A,4807.038,N,01131.000,E,022.4,,2303,0031234")).1.dataReady =
        true ∧
    (parseRMC initGpsData (strToBytes "000000")
      (strToBytes "GPRMC,123519,A,4807.038,N,01131.000,E,022.4,,2303,0031234")).1.date =
        strToBytes "003123" ∧
    (parseRMC initGpsData (strToBytes "000000")
      (strToBytes "GPRMC,123519,A,4807.038,N,01131.000,E,022.4,,2303,0031234")).2 =
        Outcome.Updated := by
  decide

/-- C9: the decoder is not a well-defined function of the sentence alone.
The sentence `GPRMC,12,A,4807.038,N,01131.000,E,022.4,084.4,230394` (time
field shorter than 6 characters, status `A`, date of 6 characters) is
accepted as `Updated`, yet the `localTime` it stores is computed from the
never-initialised `tempTime` stack buffer: two different indeterminate
buffer contents yield two different records. -/
theorem c9_uninitialized_time :
    ∃ (sentence g1 g2 : Bytes),
      g1 ≠ g2 ∧
      (parseRMC initGpsData g1 sentence).2 = Outcome.Updated ∧
      (parseRMC initGpsData g2 sentence).2 = Outcome.Updated ∧
      (parseRMC initGpsData g1 sentence).1.time ≠
        (parseRMC initGpsData g2 sentence).1.time := by
  refine ⟨strToBytes "GPRMC,12,A,4807.038,N,01131.000,E,022.4,084.4,230394",
    strToBytes "000000", strToBytes "999999", ?_, ?_, ?_, ?_⟩ <;> decide

theorem adjustTimeZone_length (tb : Bytes) (hlen : tb.length = 6)
    (hdig : ∀ b ∈ tb, 48 ≤ b ∧ b ≤ 57) :
    (adjustTimeZone tb).length = 6 := by
  rcases tb with _ | ⟨b0, _ | ⟨b1, _ | ⟨b2, _ | ⟨b3, _ | ⟨b4, _ | ⟨b5, tl⟩⟩⟩⟩⟩⟩ <;>
    simp only [List.length_cons, List.length_nil] at hlen <;> try omega
  have htl : tl = [] := by
    rw [← List.length_eq_zero]
    omega
  subst htl
  obtain ⟨h0a, h0b⟩ := hdig b0 (by simp)
  obtain ⟨h1a, h1b⟩ := hdig b1 (by simp)
  obtain ⟨h2a, h2b⟩ := hdig b2 (by simp)
  obtain ⟨h3a, h3b⟩ := hdig b3 (by simp)
  obtain ⟨h4a, h4b⟩ := hdig b4 (by simp)
  obtain ⟨h5a, h5b⟩ := hdig b5 (by simp)
  rw [adjustTimeZone_digit_list]
  have e2 : ((b2 : Int) - 48) * 10 + ((b3 : Int) - 48) + TZ_MINUTES =
      (((b2 - 48) * 10 + (b3 - 48) + 30 : Nat) : Int) := by
    simp only [TZ_MINUTES]; omega
  rw [e2, tdiv_sixty, tmod_sixty]
  have e1 : ((b0 : Int) - 48) * 10 + ((b1 : Int) - 48) + TZ_HOURS +
      ((((b2 - 48) * 10 + (b3 - 48) + 30) / 60 : Nat) : Int) =
      (((b0 - 48) * 10 + (b1 - 48) + 5 + ((b2 - 48) * 10 + (b3 - 48) + 30) / 60 : Nat) : Int) := by
    simp only [TZ_HOURS]; omega
  rw [e1, tmod_twentyfour]
  have e3 : ((b4 : Int) - 48) * 10 + ((b5 : Int) - 48) =
      (((b4 - 48) * 10 + (b5 - 48) : Nat) : Int) := by omega
  rw [e3]
  rw [List.length_append, List.length_append]
  rw [fmt2_length_two _ (by omega), fmt2_length_two _ (by omega),
    fmt2_length_two _ (by omega)]

/-- C10: after the zero-initialization in `setup()` the fix record's string
fields are within bounds, and every decode call whose captured time buffer
(the characters handed to the UTC-to-local conversion) consists of decimal
digits preserves the bounds: `date` and `localTime` hold at most 6 bytes
and `latitude`/`longitude` at most 10 bytes — every copy truncates to the
field width (and, in the source, writes an explicit NUL terminator). -/
theorem c10_field_bounds :
    gpsInv initGpsData ∧
    ∀ (g : GpsData) (tempTime0 sentence : Bytes),
      gpsInv g →
      (capturedTime g tempTime0 sentence).length = 6 →
      (∀ b ∈ capturedTime g tempTime0 sentence, 48 ≤ b ∧ b ≤ 57) →
      gpsInv (parseRMC g tempTime0 sentence).1 := by
  constructor
  · exact ⟨by simp [initGpsData], by simp [initGpsData], by simp [initGpsData],
      by simp [initGpsData]⟩
  intro g tempTime0 sentence hInv hlen hdig
  obtain ⟨hdate, htime, hlat, hlon⟩ := hInv
  have hd := parseLoop_date_cases (strtokFields sentence) 0 ({ g with dataReady := false }, tempTime0)
  have hla := parseLoop_lat_cases (strtokFields sentence) 0 ({ g with dataReady := false }, tempTime0)
  have hlo := parseLoop_lon_cases (strtokFields sentence) 0 ({ g with dataReady := false }, tempTime0)
  have hti := parseLoop_time (strtokFields sentence) 0 ({ g with dataReady := false }, tempTime0)
  have hadj := adjustTimeZone_length (capturedTime g tempTime0 sentence) hlen hdig
  rw [capturedTime] at hadj
  have hdlen : (parseLoop ({ g with dataReady := false }, tempTime0) 0 (strtokFields sentence)).1.date.length ≤ 6 := by
    rcases hd with h | ⟨t, h⟩
    · rw [h]; simpa using hdate
    · rw [h]; simp [List.length_take]
  have hlalen : (parseLoop ({ g with dataReady := false }, tempTime0) 0 (strtokFields sentence)).1.lat.length ≤ 10 := by
    rcases hla with h | ⟨t, h⟩
    · rw [h]; simpa using hlat
    · rw [h]; simp [List.length_take]
  have hlolen : (parseLoop ({ g with dataReady := false }, tempTime0) 0 (strtokFields sentence)).1.lon.length ≤ 10 := by
    rcases hlo with h | ⟨t, h⟩
    · rw [h]; simpa using hlon
    · rw [h]; simp [List.length_take]
  have htilen : (parseLoop ({ g with dataReady := false }, tempTime0) 0 (strtokFields sentence)).1.time.length ≤ 6 := by
    rw [hti]; simpa using htime
  simp only [parseRMC]
  split_ifs with h1 h2
  · exact ⟨by simpa using hdlen, by simpa using hadj.le, by simpa using hlalen,
      by simpa using hlolen⟩
  · exact ⟨hdlen, htilen, hlalen, hlolen⟩
  · exact ⟨hdlen, htilen, hlalen, hlolen⟩

/-- C10 witness: a concrete decode with a digit time field preserves the
bounds from the zero-initialised record. -/
theorem c10_field_bounds_witness :
    gpsInv (parseRMC initGpsData (strToBytes "000000")
      (strToBytes "GPRMC,123519,A,4807.038,N,01131.000,E,022.4,084.4,230394")).1 :=
  c10_field_bounds.2 initGpsData (strToBytes "000000")
    (strToBytes "GPRMC,123519,A,4807.038,N,01131.000,E,022.4,084.4,230394")
    (by unfold gpsInv; decide) (by decide) (by decide)

/-! ### The sentence assembler -/

theorem feedAll_append (xs ys : List Nat) : ∀ st : Assembler,
    feedAll st (xs ++ ys) =
      ((feedAll (feedAll st xs).1 ys).1,
        (feedAll st xs).2 ++ (feedAll (feedAll st xs).1 ys).2) := by
  induction xs with
  | nil => intro st; simp [feedAll]
  | cons c cs ih =>
    intro st
    simp only [List.cons_append, feedAll, List.append_eq]
    rw [ih]

theorem feedAll_snd_length (l : List Nat) : ∀ st : Assembler,
    ((feedAll st l).2).length = l.length := by
  induction l with
  | nil => intro st; rfl
  | cons c cs ih => intro st; simp [feedAll, ih]

theorem seg_append_reset (l : List Nat) (c : Nat) (h : isReset c = true) :
    seg (l ++ [c]) = [] := by
  simp [seg, List.reverse_append, List.takeWhile_cons, h]

theorem seg_append_keep (l : List Nat) (c : Nat) (h : isReset c = false) :
    seg (l ++ [c]) = seg l ++ [c] := by
  simp [seg, List.reverse_append, List.takeWhile_cons, h]

theorem asm_buffer (l : List Nat) :
    (feedAll initAsm l).1.buffer = (seg l).take 127 := by
  induction l using List.reverseRecOn with
  | nil => rfl
  | append_singleton l c ih =>
    rw [feedAll_append]
    show (feedAll (feedAll initAsm l).1 [c]).1.buffer = _
    simp only [feedAll]
    by_cases h36 : c = 36
    · subst h36
      rw [seg_append_reset l 36 (by decide)]
      simp [feed]
    · by_cases hterm : c = 10 ∨ c = 13
      · rw [seg_append_reset l c (by rcases hterm with h | h <;> subst h <;> decide)]
        unfold feed
        rw [if_neg h36, if_pos hterm]
        split_ifs <;> rfl
      · have hreset : isReset c = false := by
          unfold isReset
          push_neg at hterm
          simp [h36, hterm.1, hterm.2]
        rw [seg_append_keep l c hreset]
        unfold feed
        rw [if_neg h36, if_neg hterm]
        by_cases hlen : (feedAll initAsm l).1.buffer.length < 127
        · rw [if_pos hlen]
          show (feedAll initAsm l).1.buffer ++ [c] = (seg l ++ [c]).take 127
          rw [ih]
          rw [ih, List.length_take] at hlen
          have hslen : (seg l).length < 127 := by omega
          rw [List.take_of_length_le (by omega),
            List.take_of_length_le (by simp [List.length_append]; omega)]
        · rw [if_neg hlen]
          show (feedAll initAsm l).1.buffer = (seg l ++ [c]).take 127
          rw [ih]
          rw [ih, List.length_take] at hlen
          have hslen : 127 ≤ (seg l).length := by omega
          rw [List.take_append_of_le_length hslen]

theorem feedAll_no_empty (l : List Nat) : ∀ st : Assembler,
    ∀ o ∈ (feedAll st l).2, o ≠ some [] := by
  induction l with
  | nil => intro st o ho; simp [feedAll] at ho
  | cons c cs ih =>
    intro st o ho
    simp only [feedAll, List.mem_cons] at ho
    rcases ho with h | h
    · subst h
      unfold feed
      split_ifs with h1 h2 h3 h4
      · simp
      · simp only [ne_eq, Option.some.injEq]
        intro hb
        rw [hb] at h3
        simp at h3
      · simp
      · simp
      · simp
    · exact ih (feed st c).1 o h

/-- C2 (amended): a sentence is emitted exactly at each `\n`/`\r` byte for
which at least one byte has been buffered since the most recent reset byte
(`$`, `\n`, `\r`) or since the start of input — a preceding `$` is NOT
required: bytes arriving before any `$` are buffered and emitted too. The
emitted content equals the first 127 bytes (the buffer capacity, one byte
being reserved for the terminator) of the segment since the last reset,
and no zero-length sentence is ever emitted. -/
theorem c2_assembler_emission (bs : List Nat) :
    (∀ i, i < bs.length →
      (feedAll initAsm bs).2.getD i none =
        (if isTerm (bs.getD i 0) = true ∧ seg (bs.take i) ≠ [] then
          some ((seg (bs.take i)).take 127)
        else none)) ∧
    ∀ o ∈ (feedAll initAsm bs).2, o ≠ some [] := by
  constructor
  · intro i hi
    rw [List.getD_eq_getElem bs 0 hi]
    have hsplit : bs = bs.take i ++ bs[i] :: bs.drop (i + 1) := by
      rw [← List.drop_eq_getElem_cons hi, List.take_append_drop]
    rw [show feedAll initAsm bs = feedAll initAsm (bs.take i ++ bs[i] :: bs.drop (i + 1)) from
      by rw [← hsplit]]
    rw [feedAll_append]
    have h1len : (feedAll initAsm (bs.take i)).2.length = i := by
      rw [feedAll_snd_length]
      simp [List.length_take]
      omega
    rw [List.getD_eq_getElem?_getD,
      List.getElem?_append_right (by rw [h1len]), h1len, Nat.sub_self]
    simp only [feedAll, List.getElem?_cons_zero, Option.getD_some]
    have hbuf := asm_buffer (bs.take i)
    by_cases h36 : bs[i] = 36
    · rw [h36]
      simp [feed, isTerm]
    · by_cases hterm : bs[i] = 10 ∨ bs[i] = 13
      · have hT : isTerm (bs[i]) = true := by
          rcases hterm with h | h <;> simp [isTerm, h]
        unfold feed
        rw [if_neg h36, if_pos hterm, hbuf]
        by_cases hne : seg (bs.take i) = []
        · rw [hne]
          simp [hT]
        · have hpos : 0 < ((seg (bs.take i)).take 127).length := by
            rw [List.length_take]
            have := List.length_pos.mpr hne
            omega
          rw [if_pos hpos, if_pos ⟨hT, hne⟩]
      · have hT : isTerm (bs[i]) = false := by
          unfold isTerm
          push_neg at hterm
          simp [hterm.1, hterm.2]
        unfold feed
        rw [if_neg h36, if_neg hterm]
        split_ifs with hc1 hc2 <;> simp_all
  · exact feedAll_no_empty bs initAsm

/-- C2 counterexample: feeding the two bytes `A`, `\n` — with no `$`
anywhere in the input — emits the sentence `A`, refuting the claim that a
sentence is emitted only if a `$` preceded it. -/
theorem c2_emission_without_dollar :
    (feedAll initAsm [65, 10]).2 = [none, some [65]] ∧
    36 ∉ ([65, 10] : List Nat) := by
  decide

/-- C2 witness: the amended characterization applied to the concrete input
`$`, `G`, `1`, `\n` at the terminator position. -/
theorem c2_assembler_emission_witness :
    (feedAll initAsm [36, 71, 49, 10]).2.getD 3 none =
      (if isTerm (([36, 71, 49, 10] : List Nat).getD 3 0) = true ∧
          seg (([36, 71, 49, 10] : List Nat).take 3) ≠ [] then
        some ((seg (([36, 71, 49, 10] : List Nat).take 3)).take 127)
      else none) :=
  (c2_assembler_emission [36, 71, 49, 10]).1 3 (by decide)

/-! ### The log scheduler -/

theorem usub_mod (L t : Nat) (h : L ≤ t) :
    usub (t % U32) (L % U32) = (t - L) % U32 := by
  unfold usub U32
  omega

theorem chain_le_of_le {L t : Nat} {ts : List Nat} (h : L ≤ t)
    (hc : List.Chain (fun a b => a ≤ b) t ts) :
    List.Chain (fun a b => a ≤ b) L ts := by
  cases hc with
  | nil => exact List.Chain.nil
  | cons hab hchain => exact List.Chain.cons (le_trans h hab) hchain

/-- C8: over any nondecreasing sequence of real millisecond timestamps `rs`
starting from a real last-fire time `L` (the scheduler stores only the
32-bit reductions), the code fires exactly when the wrapped unsigned
difference `now - lastFire` is at least `LOG_INTERVAL_MS` (5000 ms); the
real times at which it fires are spaced at least 5000 ms apart — so it
never fires before the interval has elapsed since the last fire and fires
at most once per interval regardless of call frequency — and the stored
`lastLogTime` after the run is the (reduced) timestamp of the last fire,
not `lastFire + interval`. -/
theorem c8_scheduler_interval (L : Nat) (rs : List Nat)
    (hchain : List.Chain (fun a b => a ≤ b) L rs) :
    schedFires (L % U32) (rs.map (fun t => t % U32)) = idealFires L rs ∧
    List.Chain (fun a b => a + LOG_INTERVAL_MS ≤ b) L (fireTimes L rs) ∧
    schedLast (L % U32) (rs.map (fun t => t % U32)) =
      (fireTimes L rs).getLastD L % U32 := by
  induction rs generalizing L with
  | nil => exact ⟨rfl, List.Chain.nil, rfl⟩
  | cons t ts ih =>
    rw [List.chain_cons] at hchain
    obtain ⟨hLt, hchain2⟩ := hchain
    have hu : usub (t % U32) (L % U32) = (t - L) % U32 := usub_mod L t hLt
    by_cases hfire : LOG_INTERVAL_MS ≤ (t - L) % U32
    · have hstep : schedTick (L % U32) (t % U32) = (true, t % U32) := by
        unfold schedTick
        rw [hu, if_pos hfire]
      obtain ⟨ih1, ih2, ih3⟩ := ih t hchain2
      refine ⟨?_, ?_, ?_⟩
      · simp only [List.map_cons, schedFires, hstep]
        rw [idealFires, if_pos hfire]
        exact congrArg (List.cons true) ih1
      · rw [fireTimes, if_pos hfire]
        refine List.Chain.cons ?_ ih2
        have hmle : (t - L) % U32 ≤ t - L := Nat.mod_le _ _
        omega
      · simp only [List.map_cons, schedLast, hstep]
        rw [fireTimes, if_pos hfire, List.getLastD_cons]
        exact ih3
    · have hstep : schedTick (L % U32) (t % U32) = (false, L % U32) := by
        unfold schedTick
        rw [hu, if_neg hfire]
      obtain ⟨ih1, ih2, ih3⟩ := ih L (chain_le_of_le hLt hchain2)
      refine ⟨?_, ?_, ?_⟩
      · simp only [List.map_cons, schedFires, hstep]
        rw [idealFires, if_neg hfire]
        exact congrArg (List.cons false) ih1
      · rw [fireTimes, if_neg hfire]
        exact ih2
      · simp only [List.map_cons, schedLast, hstep]
        rw [fireTimes, if_neg hfire]
        exact ih3

/-- C8 witness: a concrete run from `lastLogTime = 0` over the readings
1000, 5000, 6000, 10000 ms. -/
theorem c8_scheduler_interval_witness :
    schedFires (0 % U32) (([1000, 5000, 6000, 10000] : List Nat).map (fun t => t % U32)) =
      idealFires 0 [1000, 5000, 6000, 10000] ∧
    List.Chain (fun a b => a + LOG_INTERVAL_MS ≤ b) 0 (fireTimes 0 [1000, 5000, 6000, 10000]) ∧
    schedLast (0 % U32) (([1000, 5000, 6000, 10000] : List Nat).map (fun t => t % U32)) =
      (fireTimes 0 [1000, 5000, 6000, 10000]).getLastD 0 % U32 :=
  c8_scheduler_interval 0 [1000, 5000, 6000, 10000]
    (List.Chain.cons (by omega) (List.Chain.cons (by omega)
      (List.Chain.cons (by omega) (List.Chain.cons (by omega) List.Chain.nil))))
